import Mathlib

/-!  Verification development for the icinga2-procmgr process manager.

A shallow embedding of the request-handling core in `manager.go` (request
parsing, process supervision, wait-status classification, response
publication) and of the consumer read loop, together with theorems checking
the specification's claims against it.

Conventions of the embedding:
* External library calls (`json.Unmarshal` into `[]string`,
  `strconv.ParseFloat`) are oracles carried in a `World` record, so theorems
  quantify over their behaviour; concrete instantiations faithful on the
  inputs actually used are provided for witnesses.
* Timestamps (`time.Now` / `time2Float`) are modelled as rational numbers of
  seconds, threaded through the `World`.
* Nondeterminism of the `select` over the reaper channel, the timer channel
  and the shutdown broadcast is resolved by an explicit event schedule
  (`List Ev`) in the `World`.
* Observable behaviour (Redis commands, process starts, signals, the
  in-flight gate) is recorded as a trace of `Effect`s.  Pure log lines are
  omitted except where a claim mentions them (transaction failure, fatal
  exits).
-/

set_option maxHeartbeats 1000000

namespace Procmgr

/-- Stream name of the request stream (`manager.go`). -/
def spawnStream : String := "icinga2:process:spawn"

/-- Stream name of the response stream (`manager.go`). -/
def exitStream : String := "icinga2:process:exit"

/-- Consumer-group name (`manager.go`). -/
def cgroupName : String := "icinga2-procmgr"

/-- Starting id for the consumer-group creation call. -/
def startIdZero : String := "0-0"

/-- Cursor used by the group read: new, never-delivered entries. -/
def cursorNew : String := ">"

/-- Message field holding the request id. -/
def kId : String := "id"

/-- Message field holding the JSON-encoded command array. -/
def kCommand : String := "command"

/-- Message field holding the JSON-encoded environment array. -/
def kEnv : String := "env"

/-- Message field holding the timeout string. -/
def kTimeout : String := "timeout"

/-- Rejection reason for a malformed `command` field (`manager.go`). -/
def badCommandSpec : String := "bad command spec"

/-- Rejection reason for a malformed `env` field (`manager.go`). -/
def badEnvSpec : String := "bad env spec"

/-- Rejection reason for a malformed `timeout` field (`manager.go`). -/
def badTimeoutSpec : String := "bad timeout spec"

/-- Sentinel appended to the output buffer when the timer fires. -/
def timeoutSentinel : String := "<Timeout exceeded.>"

/-- Prefix of every failure-response output: worker identity tag built by
`sendFailure` via `fmt.Sprintf`. -/
def mgrTag (uuid : String) : String := "[Icinga 2 process manager " ++ uuid ++ "] "

/-- Numeric value of SIGKILL on linux. -/
def sigKILL : Nat := 9

/-- Numeric value of SIGCONT on linux/amd64 (`syscall.SIGCONT`). -/
def sigCONT : Nat := 18

/-- A value of a Redis stream message field: Go `interface{}`, of which the
code only distinguishes strings (via type assertion) from everything else. -/
inductive RVal
  | str (s : String)
  | nonStr
deriving DecidableEq

/-- One message delivered by the group read: its Redis id plus its fields. -/
structure XMessage where
  msgId : String
  values : List (String × RVal)
deriving DecidableEq

/-- Go `message.Values[k].(string)`: succeeds iff the field is present and a
string. -/
def getStr (m : XMessage) (k : String) : Option String :=
  match m.values.lookup k with
  | some (.str s) => some s
  | _ => none

/-- Classification of a `syscall.WaitStatus`, as the mutually exclusive
predicates `Exited`, `Signaled`, `Stopped`, `Continued` probed by
`handleRequest`; `unknown` is a status satisfying none of them. -/
inductive WaitStatus
  | exited (c : Nat)
  | signaled (s : Nat)
  | stopped (s : Nat)
  | continued
  | unknown
deriving DecidableEq

/-- Modelled from the spec: the value delivered by the reaper (`waitForCmd`,
not in src/): `none` for a clean wait, an `*exec.ExitError` wrapping a wait
status (with its `Error()` text), or any other error. -/
inductive WaitErr
  | exitErr (ws : WaitStatus) (msg : String)
  | otherErr (msg : String)
deriving DecidableEq

/-- Modelled from the spec: one readiness event of the supervision `select`:
the reaper channel delivering a wait result (with the wall-clock time of
delivery), the timeout timer channel firing, or the `shuttingDown` drain
broadcast (not in src/) firing. -/
inductive Ev
  | reaper (res : Option WaitErr) (tEnd : Rat)
  | timer
  | drain
deriving DecidableEq

/-- Whether a schedule event is a reaper delivery. -/
def isReaperEv : Ev → Bool
  | .reaper _ _ => true
  | _ => false

/-- One response-stream entry, with the values `sendResponse` would stringify
into the `XADD` field map (`pid`/`code` via `FormatInt`, the timestamps via
`time2Float`/`FormatFloat`). -/
structure RespEntry where
  id : String
  pid : Int
  code : Int
  output : String
  execStart : Rat
  execEnd : Rat
deriving DecidableEq

/-- A Redis command queued on a pipelined transaction. -/
inductive RCmd
  | xadd (stream : String) (entry : RespEntry)
  | xack (stream group msgId : String)
deriving DecidableEq

/-- Observable actions of the worker. -/
inductive Effect
  | xgroupCreate (stream group startId : String)
  | xreadGroup (stream group consumer cursor : String) (count : Nat)
  | spawnTask (msgId : String)
  | logFatal
  | logError
  | ackCall (stream group msgId : String)
  | txExec (cmds : List RCmd) (ok : Bool)
  | gateRLock
  | gateRUnlock
  | start (prog : String) (args env : List String) (ok : Bool)
  | kill (pid : Int) (sig : Nat)
deriving DecidableEq

/-- Result of the supervision loop: the reaper delivered (with the final
output-buffer contents and end time), the drain path returned, or the task is
still blocked in the `select`. -/
inductive SupOut
  | finished (res : Option WaitErr) (out : String) (tEnd : Rat)
  | drained
  | blocked (out : String)
deriving DecidableEq

/-- Result of the early-return parse chain of `handleRequest`. -/
inductive ParseResult
  | noId
  | fail (rawId reason : String)
  | ok (rawId : String) (command env : List String) (timeout : Rat)
deriving DecidableEq

/-- Summary of which path one `handleRequest` run took. -/
inductive HrOutcome
  | noId
  | parseFail (reason : String)
  | spawnFail (err : String)
  | published (entry : RespEntry)
  | drained
  | blocked
deriving DecidableEq

/-- The ambient behaviour of one `handleRequest` run: the worker identity,
the library oracles, the parent environment, signal-name rendering, the
outcome of `cmd.Start`, the OS pid on success, the wall-clock values read,
the `select` schedule and the outcome of the pipelined `Exec`. -/
structure World where
  uuid : String
  jdec : String → Except String (List String)
  pfloat : String → Except String Rat
  osEnviron : List String
  signame : Nat → String
  startErr : Option String
  pid : Int
  failNow : Rat
  tStart : Rat
  sched : List Ev
  execOk : Bool

/-- The two commands `sendResponse` queues on one pipelined transaction:
the `XADD` of the response entry and the `XACK` of the input message. -/
def respTx (msg : XMessage) (e : RespEntry) : List RCmd :=
  [.xadd exitStream e, .xack spawnStream cgroupName msg.msgId]

/-- Effects of `sendResponse`: one transaction execution; on failure only an
error is logged (the success-path trace log is omitted). -/
def sendResponseE (w : World) (msg : XMessage) (e : RespEntry) : List Effect :=
  .txExec (respTx msg e) w.execOk :: (if w.execOk then [] else [.logError])

/-- The failure entry built by `sendFailure`: pid −1, code 128, the tagged
reason as output, and one `time.Now` for both timestamps. -/
def failEntry (w : World) (rawId reason : String) : RespEntry :=
  ⟨rawId, -1, 128, mgrTag w.uuid ++ reason, w.failNow, w.failNow⟩

/-- Effects of `sendFailure`: publish the failure entry. -/
def sendFailure (w : World) (msg : XMessage) (rawId reason : String) : List Effect :=
  sendResponseE w msg (failEntry w rawId reason)

/-- The supervision `select` loop of `handleRequest`, driven by an event
schedule.  A reaper delivery ends the loop.  The timer case appends the
sentinel to the shared output buffer, SIGKILLs the negated pid and nils the
timer channel (a disarmed timer event is never selected, hence skipped).
The drain case SIGKILLs the group and then blocks on the reaper channel
before returning without publication. -/
def supervise (pid : Int) : List Ev → String → Bool → List Effect × SupOut
  | [], out, _ => ([], .blocked out)
  | .reaper res tEnd :: _, out, _ => ([], .finished res out tEnd)
  | .timer :: rest, out, armed =>
      if armed then
        let r := supervise pid rest (out ++ timeoutSentinel) false
        (.kill (-pid) sigKILL :: r.1, r.2)
      else
        supervise pid rest out armed
  | .drain :: rest, out, _ =>
      if rest.any isReaperEv then
        ([.kill (-pid) sigKILL], .drained)
      else
        ([.kill (-pid) sigKILL], .blocked out)

/-- The annotation `fmt.Fprintf(&sharedOut, "<Terminated by signal %s.>", sig)`
appends; `%s` renders the signal via its Go `String()` name. -/
def termAnno (w : World) (s : Nat) : String :=
  "<Terminated by signal " ++ w.signame s ++ ".>"

/-- Exit-code classification of an `*exec.ExitError`'s wait status, with the
annotation it appends to the shared output (`handleRequest`, classification
chain).  `eeMsg` is `ee.Error()`, used by the fall-through branch. -/
def classify (w : World) (ws : WaitStatus) (eeMsg out : String) : Int × String :=
  match ws with
  | .exited c => ((c : Int), out)
  | .signaled s => (128 + (s : Int), out ++ termAnno w s)
  | .stopped s => (128 + (s : Int), out ++ termAnno w s)
  | .continued => (128 + (sigCONT : Int), out ++ termAnno w sigCONT)
  | .unknown => (128, out ++ "<" ++ eeMsg ++ ">")

/-- The response entry built after the reaper delivered `res`: clean wait ⇒
code 0; `*exec.ExitError` ⇒ `classify`; any other wait error ⇒ pid −1,
code 128, the error text appended in angle brackets. -/
def waitResultEntry (w : World) (rawId : String) (res : Option WaitErr)
    (out : String) (tEnd : Rat) : RespEntry :=
  match res with
  | none => ⟨rawId, w.pid, 0, out, w.tStart, tEnd⟩
  | some (.exitErr ws eeMsg) =>
      let r := classify w ws eeMsg out
      ⟨rawId, w.pid, r.1, r.2, w.tStart, tEnd⟩
  | some (.otherErr m) => ⟨rawId, -1, 128, out ++ "<" ++ m ++ ">", w.tStart, tEnd⟩

/-- The early-return parse chain of `handleRequest`: request id (abandon
without response if absent/non-string), command (string, JSON string array,
non-empty), env (string, JSON string array), timeout (string, 64-bit
float). -/
def parseReq (w : World) (msg : XMessage) : ParseResult :=
  match getStr msg kId with
  | none => .noId
  | some rawId =>
    match getStr msg kCommand with
    | none => .fail rawId badCommandSpec
    | some rawCommand =>
      match w.jdec rawCommand with
      | .error e => .fail rawId (badCommandSpec ++ ": " ++ e)
      | .ok command =>
        if command.length < 1 then .fail rawId badCommandSpec
        else
          match getStr msg kEnv with
          | none => .fail rawId badEnvSpec
          | some rawEnv =>
            match w.jdec rawEnv with
            | .error e => .fail rawId (badEnvSpec ++ ": " ++ e)
            | .ok env =>
              match getStr msg kTimeout with
              | none => .fail rawId badTimeoutSpec
              | some rawTimeout =>
                match w.pfloat rawTimeout with
                | .error e => .fail rawId (badTimeoutSpec ++ ": " ++ e)
                | .ok t => .ok rawId command env t

/-- Effects and outcome of a run whose `cmd.Start` succeeded: supervise, then
classify and publish (releasing the gate), skip publication on drain, or stay
blocked. -/
def runStarted (w : World) (msg : XMessage) (rawId : String) :
    List Effect × HrOutcome :=
  match supervise w.pid w.sched ("") true with
  | (es, .blocked _) => (es, .blocked)
  | (es, .drained) => (es ++ [.gateRUnlock], .drained)
  | (es, .finished res out tEnd) =>
      let entry := waitResultEntry w rawId res out tEnd
      (es ++ sendResponseE w msg entry ++ [.gateRUnlock], .published entry)

/-- Result of one `handleRequest` run: the (possibly newly initialised)
worker-environment cache, the effect trace, and the path taken. -/
structure HrResult where
  envCache : Option (List String)
  trace : List Effect
  outcome : HrOutcome

/-- The embedding of `manager.handleRequest`.  `cache` is `m.ourEnv.vars`
guarded by `m.ourEnv.once` (`none` = the `sync.Once` has not run).  The parse
chain runs before the gate; the one-shot environment capture runs after
parsing; the in-flight gate is read-locked before `cmd.Start`; the child's
environment is the captured worker environment followed by the request's. -/
def handleRequest (w : World) (cache : Option (List String)) (msg : XMessage) :
    HrResult :=
  match parseReq w msg with
  | .noId => ⟨cache, [.ackCall spawnStream cgroupName msg.msgId], .noId⟩
  | .fail rawId reason => ⟨cache, sendFailure w msg rawId reason, .parseFail reason⟩
  | .ok rawId command env _t =>
      let vars := cache.getD w.osEnviron
      let childEnv := vars ++ env
      match w.startErr with
      | some e =>
          ⟨some vars,
            .gateRLock :: .start (command.headD ("")) command.tail childEnv false ::
              (sendFailure w msg rawId e ++ [.gateRUnlock]),
            .spawnFail e⟩
      | none =>
          let r := runStarted w msg rawId
          ⟨some vars,
            .gateRLock :: .start (command.headD ("")) command.tail childEnv true :: r.1,
            r.2⟩

/-- Decidable equality for `Except`, used to evaluate the library oracles on
concrete inputs. -/
instance {α β : Type} [DecidableEq α] [DecidableEq β] : DecidableEq (Except α β) :=
  fun a b =>
    match a, b with
    | .ok x, .ok y =>
        if h : x = y then .isTrue (congrArg Except.ok h)
        else .isFalse (fun hc => h (Except.ok.inj hc))
    | .error x, .error y =>
        if h : x = y then .isTrue (congrArg Except.error h)
        else .isFalse (fun hc => h (Except.error.inj hc))
    | .ok _, .error _ => .isFalse (fun hc => Except.noConfusion hc)
    | .error _, .ok _ => .isFalse (fun hc => Except.noConfusion hc)

/-- Go `strings.HasPrefix s p`, computed structurally on the character
lists. -/
def strHasPfx (s p : String) : Bool := p.data.isPrefixOf s.data

/-- The ambient behaviour of one `readLoop` run: whether UUID generation
failed, the error (if any) of the group-creation call, and the outcome of
each successive group read (a batch of message ids, or a transport error). -/
structure RWorld where
  uuid : String
  uuidErr : Bool
  createErr : Option String
  reads : List (Except String (List String))

/-- The body of the read loop: one `XREADGROUP` per iteration; a transport
error is fatal (logrus `Fatal` exits the process); otherwise one task is
spawned per returned message and the loop repeats. -/
def readStep (uuid : String) : List (Except String (List String)) → List Effect
  | [] => []
  | r :: rest =>
      .xreadGroup spawnStream cgroupName uuid cursorNew 100 ::
        match r with
        | .error _ => [.logFatal]
        | .ok msgs => (msgs.map .spawnTask) ++ readStep uuid rest

/-- The embedding of `manager.readLoop`: generate the identity (fatal on
failure), issue the create-group-with-stream call (`BUSYGROUP`-prefixed
errors ignored, others fatal), then run the read loop. -/
def readLoop (w : RWorld) : List Effect :=
  if w.uuidErr then [.logFatal]
  else
    .xgroupCreate spawnStream cgroupName startIdZero ::
      match w.createErr with
      | some e => if strHasPfx e ("BUSYGROUP ") then readStep w.uuid w.reads else [.logFatal]
      | none => readStep w.uuid w.reads

/-- The message ids delivered by the error-free head of the read schedule
(reads after the first transport error never happen). -/
def okMsgs : List (Except String (List String)) → List String
  | [] => []
  | .ok msgs :: rest => msgs ++ okMsgs rest
  | .error _ :: _ => []

/-- The key part of a `KEY=VALUE` environment entry (Go `os/exec` `dedupEnv`
splits at the first `=`). -/
def envKey (s : String) : String := String.mk (s.data.takeWhile (fun c => c ≠ ('=')))

/-- Modelled from the spec: the entry a child observes for key `k` — Go's
`os/exec` deduplicates `cmd.Env` keeping the last entry per key. -/
def lookupEnvLast (env : List String) (k : String) : Option String :=
  (env.filter (fun e => envKey e == k)).getLast?

/-- Whether an effect is a pipelined-transaction execution. -/
def isTx : Effect → Bool
  | .txExec _ _ => true
  | _ => false

/-- Number of pipelined-transaction executions in a trace. -/
def txCount (tr : List Effect) : Nat := tr.countP isTx

/-- Whether one effect acknowledges message `mid`: a standalone `XACK` call,
or a successfully executed transaction containing an `XACK` of it. -/
def ackHit (mid : String) : Effect → Bool
  | .ackCall _ _ i => i == mid
  | .txExec cmds ok =>
      ok && cmds.any fun c =>
        match c with
        | .xack _ _ i => i == mid
        | _ => false
  | _ => false

/-- Whether a trace acknowledged message `mid`. -/
def ackedIn (tr : List Effect) (mid : String) : Bool :=
  tr.any (ackHit mid)

/-- All-digit string to number, accumulator form. -/
def parseDigitsAux : List Char → Nat → Option Nat
  | [], acc => some acc
  | c :: cs, acc =>
      if c.isDigit then parseDigitsAux cs (acc * 10 + (c.toNat - 48)) else none

/-- Non-empty all-digit string to number. -/
def parseDigits : List Char → Option Nat
  | [] => none
  | cs => parseDigitsAux cs 0

/-- Error text used by the concrete float-parser instantiation. -/
def parseFloatErr : String := "invalid syntax"

/-- Modelled from the spec: `strconv.ParseFloat(s, 64)` is Go library code;
this models its behaviour on optionally signed integer decimal strings (the
subset exercised by the concrete witnesses), returning the exact value.  Like
`ParseFloat`, it accepts a leading minus sign. -/
def decParseFloat (s : String) : Except String Rat :=
  match s.data with
  | ('-') :: cs =>
      match parseDigits cs with
      | some n => .ok ((-(n : Int) : Int) : Rat)
      | none => .error parseFloatErr
  | ('+') :: cs =>
      match parseDigits cs with
      | some n => .ok (((n : Int)) : Rat)
      | none => .error parseFloatErr
  | cs =>
      match parseDigits cs with
      | some n => .ok (((n : Int)) : Rat)
      | none => .error parseFloatErr

/-- Raw `command` field decoding to a one-element array. -/
def cmdRawOne : String := "[\"/bin/true\"]"

/-- Raw field decoding to the empty array. -/
def emptyArrRaw : String := "[]"

/-- Raw `env` field decoding to a one-entry array overriding key `A`. -/
def envRawOv : String := "[\"A=9\"]"

/-- Concrete JSON-string-array decoder oracle, faithful to `json.Unmarshal`
on the inputs the witnesses use. -/
def jdecTest (s : String) : Except String (List String) :=
  if s = cmdRawOne then .ok [("/bin/true")]
  else if s = emptyArrRaw then .ok []
  else if s = envRawOv then .ok [("A=9")]
  else .error ("invalid character")

/-- Base concrete world: clean start, clean exit after one second. -/
def wBase : World where
  uuid := "u-1"
  jdec := jdecTest
  pfloat := decParseFloat
  osEnviron := [("A=1"), ("B=2")]
  signame := fun _ => ("killed")
  startErr := none
  pid := 42
  failNow := 0
  tStart := 0
  sched := [.reaper none 1]
  execOk := true

/-- Well-formed concrete request message. -/
def msgOk : XMessage :=
  ⟨"m-1",
    [(kId, .str ("r1")), (kCommand, .str cmdRawOne),
     (kEnv, .str emptyArrRaw), (kTimeout, .str ("10"))]⟩

/-- Message whose `command` field is present but not JSON. -/
def msgBadCmd : XMessage :=
  ⟨"m-2",
    [(kId, .str ("r1")), (kCommand, .str ("not-json")),
     (kEnv, .str emptyArrRaw), (kTimeout, .str ("10"))]⟩

/-- Message lacking a string `id` field. -/
def msgNoId : XMessage := ⟨"m-3", [(kCommand, .str cmdRawOne)]⟩

/-- Message with a negative `timeout` field. -/
def msgNegTimeout : XMessage :=
  ⟨"m-4",
    [(kId, .str ("r1")), (kCommand, .str cmdRawOne),
     (kEnv, .str emptyArrRaw), (kTimeout, .str ("-1"))]⟩

/-- Message whose request env overrides key `A` of the worker env. -/
def msgEnvOv : XMessage :=
  ⟨"m-5",
    [(kId, .str ("r1")), (kCommand, .str cmdRawOne),
     (kEnv, .str envRawOv), (kTimeout, .str ("10"))]⟩

/-- World in which the wait fails with a non-`ExitError` error. -/
def wOtherErr : World := { wBase with sched := [.reaper (some (.otherErr ("wait: x"))) 1] }

/-- World in which the timer fires, then the reaper reports death by
SIGKILL. -/
def wTimeout : World :=
  { wBase with sched := [.timer, .reaper (some (.exitErr (.signaled 9) ("signal: killed"))) 2] }

/-- World in which the drain broadcast fires during supervision. -/
def wDrain : World :=
  { wBase with sched := [.drain, .reaper (some (.exitErr (.signaled 9) ("signal: killed"))) 2] }

/-- World whose pipelined `Exec` fails. -/
def wExecFail : World := { wBase with execOk := false }

/-- Concrete read-loop world: existing group (`BUSYGROUP`), one successful
batch, then a transport error. -/
def rwOk : RWorld where
  uuid := "u-1"
  uuidErr := false
  createErr := some ("BUSYGROUP Consumer Group name already exists")
  reads := [.ok [("m-1"), ("m-2")], .error ("net down")]

/-- Every effect the supervision loop itself emits is a kill signal. -/
theorem supervise_fx_kills (sched : List Ev) :
    ∀ (pid : Int) (out : String) (armed : Bool) (e : Effect),
      e ∈ (supervise pid sched out armed).1 → ∃ p s, e = Effect.kill p s := by
  induction sched with
  | nil => intro pid out armed e he; simp [supervise] at he
  | cons ev rest ih =>
    intro pid out armed e he
    cases ev with
    | reaper res t => simp [supervise] at he
    | timer =>
      cases armed with
      | true =>
        simp [supervise] at he
        rcases he with rfl | he
        · exact ⟨-pid, sigKILL, rfl⟩
        · exact ih pid _ false e he
      | false =>
        simp [supervise] at he
        exact ih pid out false e he
    | drain =>
      by_cases h : rest.any isReaperEv <;> simp [supervise, h] at he <;>
        exact ⟨-pid, sigKILL, he⟩

/-- When the supervision loop ends with a reaper delivery, the final output
buffer extends the initial one. -/
theorem supervise_out_extends (sched : List Ev) :
    ∀ (pid : Int) (out : String) (armed : Bool) (es : List Effect)
      (res : Option WaitErr) (outF : String) (t : Rat),
      supervise pid sched out armed = (es, .finished res outF t) →
      ∃ suf, outF = out ++ suf := by
  induction sched with
  | nil => intro pid out armed es res outF t h; simp [supervise] at h
  | cons ev rest ih =>
    intro pid out armed es res outF t h
    cases ev with
    | reaper r tEnd =>
      simp [supervise] at h
      exact ⟨"", by rw [← h.2.2.1, String.append_empty]⟩
    | timer =>
      cases armed with
      | true =>
        simp [supervise] at h
        have h2 : supervise pid rest (out ++ timeoutSentinel) false =
            ((supervise pid rest (out ++ timeoutSentinel) false).1,
              SupOut.finished res outF t) := by
          rw [← h.2]
        obtain ⟨suf, hsuf⟩ := ih pid (out ++ timeoutSentinel) false _ res outF t h2
        exact ⟨timeoutSentinel ++ suf, by rw [hsuf, String.append_assoc]⟩
      | false =>
        simp [supervise] at h
        exact ih pid out false es res outF t h
    | drain =>
      by_cases hr : rest.any isReaperEv <;> simp [supervise, hr] at h

/-- Exhaustive characterisation of `handleRequest`: one case per path of the
source function (no request id; parse rejection; spawn failure; supervision
blocked; drained; reaper-classified publication). -/
theorem handleRequest_cases (w : World) (cache : Option (List String)) (msg : XMessage) :
    (parseReq w msg = .noId ∧
      handleRequest w cache msg =
        ⟨cache, [.ackCall spawnStream cgroupName msg.msgId], .noId⟩)
  ∨ (∃ rawId r, parseReq w msg = .fail rawId r ∧
      handleRequest w cache msg = ⟨cache, sendFailure w msg rawId r, .parseFail r⟩)
  ∨ (∃ rawId command env t e, parseReq w msg = .ok rawId command env t ∧
      w.startErr = some e ∧
      handleRequest w cache msg =
        ⟨some (cache.getD w.osEnviron),
         .gateRLock ::
           .start (command.headD ("")) command.tail ((cache.getD w.osEnviron) ++ env) false ::
             (sendFailure w msg rawId e ++ [.gateRUnlock]),
         .spawnFail e⟩)
  ∨ (∃ rawId command env t es o, parseReq w msg = .ok rawId command env t ∧
      w.startErr = none ∧ supervise w.pid w.sched ("") true = (es, .blocked o) ∧
      handleRequest w cache msg =
        ⟨some (cache.getD w.osEnviron),
         .gateRLock ::
           .start (command.headD ("")) command.tail ((cache.getD w.osEnviron) ++ env) true :: es,
         .blocked⟩)
  ∨ (∃ rawId command env t es, parseReq w msg = .ok rawId command env t ∧
      w.startErr = none ∧ supervise w.pid w.sched ("") true = (es, .drained) ∧
      handleRequest w cache msg =
        ⟨some (cache.getD w.osEnviron),
         .gateRLock ::
           .start (command.headD ("")) command.tail ((cache.getD w.osEnviron) ++ env) true ::
             (es ++ [.gateRUnlock]),
         .drained⟩)
  ∨ (∃ rawId command env t es res out tEnd, parseReq w msg = .ok rawId command env t ∧
      w.startErr = none ∧
      supervise w.pid w.sched ("") true = (es, .finished res out tEnd) ∧
      handleRequest w cache msg =
        ⟨some (cache.getD w.osEnviron),
         .gateRLock ::
           .start (command.headD ("")) command.tail ((cache.getD w.osEnviron) ++ env) true ::
             (es ++ sendResponseE w msg (waitResultEntry w rawId res out tEnd) ++
               [.gateRUnlock]),
         .published (waitResultEntry w rawId res out tEnd)⟩) := by
  rcases hp : parseReq w msg with _ | ⟨rawId, r⟩ | ⟨rawId, command, env, t⟩
  · exact Or.inl ⟨rfl, by simp [handleRequest, hp]⟩
  · exact Or.inr (Or.inl ⟨rawId, r, rfl, by simp [handleRequest, hp]⟩)
  · rcases hs : w.startErr with _ | e
    · rcases hsv : supervise w.pid w.sched ("") true with ⟨es, so⟩
      cases so with
      | blocked o =>
        refine Or.inr (Or.inr (Or.inr (Or.inl ⟨rawId, command, env, t, es, o, rfl, rfl, rfl, ?_⟩)))
        simp [handleRequest, hp, hs, runStarted, hsv]
      | drained =>
        refine Or.inr (Or.inr (Or.inr (Or.inr (Or.inl
          ⟨rawId, command, env, t, es, rfl, rfl, rfl, ?_⟩))))
        simp [handleRequest, hp, hs, runStarted, hsv]
      | finished res out tEnd =>
        refine Or.inr (Or.inr (Or.inr (Or.inr (Or.inr
          ⟨rawId, command, env, t, es, res, out, tEnd, rfl, rfl, rfl, ?_⟩))))
        simp [handleRequest, hp, hs, runStarted, hsv]
    · exact Or.inr (Or.inr (Or.inl ⟨rawId, command, env, t, e, rfl, rfl, by simp [handleRequest, hp, hs]⟩))

/-- A parse rejection always carries the request id extracted from the
message's `id` field. -/
theorem parseReq_fail_id (w : World) (msg : XMessage) (a r : String)
    (h : parseReq w msg = .fail a r) : getStr msg kId = some a := by
  unfold parseReq at h
  rcases hid : getStr msg kId with _ | rawId <;> rw [hid] at h
  · simp at h
  · repeat' split at h
    all_goals simp_all

/-- A drained supervision run SIGKILLed the child's whole process group. -/
theorem supervise_drained_kill (sched : List Ev) :
    ∀ (pid : Int) (out : String) (armed : Bool) (es : List Effect),
      supervise pid sched out armed = (es, .drained) →
      Effect.kill (-pid) sigKILL ∈ es := by
  induction sched with
  | nil => intro pid out armed es h; simp [supervise] at h
  | cons ev rest ih =>
    intro pid out armed es h
    cases ev with
    | reaper r t => simp [supervise] at h
    | timer =>
      cases armed with
      | true =>
        simp [supervise] at h
        rcases h with ⟨h1, h2⟩
        have h2' : supervise pid rest (out ++ timeoutSentinel) false =
            ((supervise pid rest (out ++ timeoutSentinel) false).1, SupOut.drained) := by
          rw [← h2]
        have := ih pid (out ++ timeoutSentinel) false _ h2'
        rw [← h1]
        exact List.mem_cons_of_mem _ this
      | false =>
        simp [supervise] at h
        exact ih pid out false es h
    | drain =>
      by_cases hr : rest.any isReaperEv <;> simp [supervise, hr] at h
      rw [← h]
      simp

/-- Claim C1: for every supervised child whose reaper delivers a wait status,
the published response code is 0 on a clean wait, the child's own exit code
on normal exit, 128 + s when killed by signal s (with the terminated-by-
signal annotation appended to the output), 128 + s when stopped by signal s,
128 + SIGCONT when continued, and 128 on any other error. -/
theorem c1_exit_code_classification (w : World) (cache : Option (List String))
    (msg : XMessage) (rawId : String) (command env : List String) (t : Rat)
    (es : List Effect) (res : Option WaitErr) (out : String) (tEnd : Rat)
    (hp : parseReq w msg = .ok rawId command env t)
    (hst : w.startErr = none)
    (hsv : supervise w.pid w.sched ("") true = (es, .finished res out tEnd)) :
    (handleRequest w cache msg).outcome =
        .published (waitResultEntry w rawId res out tEnd)
    ∧ (waitResultEntry w rawId none out tEnd).code = 0
    ∧ (∀ c m, (waitResultEntry w rawId (some (.exitErr (.exited c) m)) out tEnd).code = c)
    ∧ (∀ s m,
        (waitResultEntry w rawId (some (.exitErr (.signaled s) m)) out tEnd).code = 128 + s
        ∧ (waitResultEntry w rawId (some (.exitErr (.signaled s) m)) out tEnd).output
            = out ++ termAnno w s)
    ∧ (∀ s m,
        (waitResultEntry w rawId (some (.exitErr (.stopped s) m)) out tEnd).code = 128 + s
        ∧ (waitResultEntry w rawId (some (.exitErr (.stopped s) m)) out tEnd).output
            = out ++ termAnno w s)
    ∧ (∀ m,
        (waitResultEntry w rawId (some (.exitErr .continued m)) out tEnd).code = 128 + sigCONT
        ∧ (waitResultEntry w rawId (some (.exitErr .continued m)) out tEnd).output
            = out ++ termAnno w sigCONT)
    ∧ (∀ m, (waitResultEntry w rawId (some (.exitErr .unknown m)) out tEnd).code = 128)
    ∧ (∀ m, (waitResultEntry w rawId (some (.otherErr m)) out tEnd).code = 128) := by
  refine ⟨?_, ?_, ?_, ?_, ?_, ?_, ?_, ?_⟩
  · simp [handleRequest, hp, hst, runStarted, hsv]
  all_goals intros <;> simp [waitResultEntry, classify]

/-- Claim C1 witness: a concrete clean run publishes code 0. -/
theorem c1_witness :
    parseReq wBase msgOk = .ok ("r1") [("/bin/true")] [] 10
    ∧ (handleRequest wBase none msgOk).outcome =
        .published (waitResultEntry wBase ("r1") none ("") 1) :=
  ⟨by decide,
    (c1_exit_code_classification wBase none msgOk ("r1") [("/bin/true")] [] 10
      [] none ("") 1 (by decide) (by decide) (by decide)).1⟩

/-- Claim C2 counterexample: a run whose `cmd.Start` succeeded (the `start`
effect with `ok = true` is in the trace, so a child was spawned) but whose
wait failed with a non-`ExitError` error publishes a response with
`pid = -1` — refuting `pid = -1 ⇔ the child never started`. -/
theorem c2_pid_invariant_counterexample :
    Effect.start ("/bin/true") [] [("A=1"), ("B=2")] true
        ∈ (handleRequest wOtherErr none msgOk).trace
    ∧ (handleRequest wOtherErr none msgOk).outcome =
        .published ⟨("r1"), -1, 128, ("<wait: x>"), 0, 1⟩ := by
  exact ⟨by decide, by decide⟩

/-- Claim C2 (amended): in every published response, `pid = -1` exactly when
the child never started (parse or spawn failure) **or** the wait on the
started child failed with a non-`ExitError` error; every `pid = -1` response
has `code = 128`; every other response carries the spawned pid. -/
theorem c2_pid_invariant_amended (w : World) (cache : Option (List String))
    (msg : XMessage) (cmds : List RCmd) (ok : Bool) (s : String) (entry : RespEntry)
    (hpid : 0 < w.pid)
    (htx : Effect.txExec cmds ok ∈ (handleRequest w cache msg).trace)
    (hadd : RCmd.xadd s entry ∈ cmds) :
    (entry.pid = -1 → entry.code = 128)
    ∧ (entry.pid = -1 ∨ entry.pid = w.pid)
    ∧ (entry.pid = -1 ↔
        ((∃ r, (handleRequest w cache msg).outcome = .parseFail r)
         ∨ (∃ e, (handleRequest w cache msg).outcome = .spawnFail e)
         ∨ (∃ es out tEnd m, supervise w.pid w.sched ("") true
              = (es, .finished (some (.otherErr m)) out tEnd)))) := by
  have hne : w.pid ≠ -1 := by omega
  rcases handleRequest_cases w cache msg with
    ⟨hp, h2⟩ | ⟨rawId, r, hp, h2⟩ | ⟨rawId, command, env, t, e, hp, hst, h2⟩ |
    ⟨rawId, command, env, t, es, o, hp, hst, hsv, h2⟩ |
    ⟨rawId, command, env, t, es, hp, hst, hsv, h2⟩ |
    ⟨rawId, command, env, t, es, res, out, tEnd, hp, hst, hsv, h2⟩
  · rw [h2] at htx; simp at htx
  · rw [h2] at htx ⊢
    by_cases hek : w.execOk <;>
      simp [sendFailure, sendResponseE, hek] at htx <;>
      rcases htx with ⟨rfl, rfl⟩ <;>
      simp [respTx] at hadd <;>
      rcases hadd with ⟨rfl, rfl⟩ <;>
      exact ⟨fun _ => by simp [failEntry], Or.inl (by simp [failEntry]),
        by simp [failEntry]⟩
  · rw [h2] at htx ⊢
    simp only [List.mem_cons] at htx
    rcases htx with h | h | h
    · cases h
    · cases h
    · rw [List.mem_append] at h
      rcases h with h | h
      · by_cases hek : w.execOk <;>
          simp [sendFailure, sendResponseE, hek] at h <;>
          rcases h with ⟨rfl, rfl⟩ <;>
          simp [respTx] at hadd <;>
          rcases hadd with ⟨rfl, rfl⟩ <;>
          exact ⟨fun _ => by simp [failEntry], Or.inl (by simp [failEntry]),
            by simp [failEntry]⟩
      · simp at h
  · rw [h2] at htx
    simp only [List.mem_cons] at htx
    have hes : es = (supervise w.pid w.sched ("") true).1 := by rw [hsv]
    rcases htx with h | h | h
    · cases h
    · cases h
    · rw [hes] at h
      obtain ⟨p, sg, hk⟩ := supervise_fx_kills w.sched w.pid ("") true _ h
      cases hk
  · rw [h2] at htx
    simp only [List.mem_cons] at htx
    have hes : es = (supervise w.pid w.sched ("") true).1 := by rw [hsv]
    rcases htx with h | h | h
    · cases h
    · cases h
    · rw [List.mem_append] at h
      rcases h with h | h
      · rw [hes] at h
        obtain ⟨p, sg, hk⟩ := supervise_fx_kills w.sched w.pid ("") true _ h
        cases hk
      · simp at h
  · rw [h2] at htx ⊢
    simp only [List.mem_cons] at htx
    have hes : es = (supervise w.pid w.sched ("") true).1 := by rw [hsv]
    rcases htx with h | h | h
    · cases h
    · cases h
    · rw [List.mem_append] at h
      rcases h with h | h
      · rw [List.mem_append] at h
        rcases h with h | h
        · rw [hes] at h
          obtain ⟨p, sg, hk⟩ := supervise_fx_kills w.sched w.pid ("") true _ h
          cases hk
        · by_cases hek : w.execOk <;>
            simp [sendResponseE, hek] at h <;>
            rcases h with ⟨rfl, rfl⟩ <;>
            simp [respTx] at hadd <;>
            rcases hadd with ⟨rfl, rfl⟩ <;>
            rcases res with _ | we
          · exact ⟨by simp [waitResultEntry, hne],
              Or.inr (by simp [waitResultEntry]),
              by simp [waitResultEntry, hne, hsv]⟩
          · rcases we with ⟨ws, m⟩ | m
            · exact ⟨by simp [waitResultEntry, hne],
                Or.inr (by simp [waitResultEntry]),
                by simp [waitResultEntry, hne, hsv]⟩
            · exact ⟨fun _ => by simp [waitResultEntry],
                Or.inl (by simp [waitResultEntry]),
                by
                  simp only [waitResultEntry]
                  constructor
                  · intro _
                    exact Or.inr (Or.inr ⟨es, out, tEnd, m, hsv⟩)
                  · intro _; trivial⟩
          · exact ⟨by simp [waitResultEntry, hne],
              Or.inr (by simp [waitResultEntry]),
              by simp [waitResultEntry, hne, hsv]⟩
          · rcases we with ⟨ws, m⟩ | m
            · exact ⟨by simp [waitResultEntry, hne],
                Or.inr (by simp [waitResultEntry]),
                by simp [waitResultEntry, hne, hsv]⟩
            · exact ⟨fun _ => by simp [waitResultEntry],
                Or.inl (by simp [waitResultEntry]),
                by
                  simp only [waitResultEntry]
                  constructor
                  · intro _
                    exact Or.inr (Or.inr ⟨es, out, tEnd, m, hsv⟩)
                  · intro _; trivial⟩
      · simp at h

/-- Claim C2 witness: the amended invariant evaluated on a concrete clean
run, whose published entry carries the spawned pid. -/
theorem c2_witness :
    0 < wBase.pid
    ∧ ((⟨("r1"), 42, 0, (""), 0, 1⟩ : RespEntry).pid = -1 ∨
        (⟨("r1"), 42, 0, (""), 0, 1⟩ : RespEntry).pid = wBase.pid) :=
  ⟨by decide,
    (c2_pid_invariant_amended wBase none msgOk
      (respTx msgOk ⟨("r1"), 42, 0, (""), 0, 1⟩) true exitStream
      ⟨("r1"), 42, 0, (""), 0, 1⟩ (by decide) (by decide) (by decide)).2.1⟩

/-- The supervision loop never executes a pipelined transaction. -/
theorem supervise_txCount (pid : Int) (sched : List Ev) (out : String) (armed : Bool) :
    txCount (supervise pid sched out armed).1 = 0 := by
  rw [txCount, List.countP_eq_zero]
  intro e he
  obtain ⟨p, s, rfl⟩ := supervise_fx_kills sched pid out armed e he
  simp [isTx]

/-- The supervision loop never acknowledges any message. -/
theorem supervise_no_ack (pid : Int) (sched : List Ev) (out : String) (armed : Bool)
    (mid : String) :
    ∀ e ∈ (supervise pid sched out armed).1, ackHit mid e = false := by
  intro e he
  obtain ⟨p, s, rfl⟩ := supervise_fx_kills sched pid out armed e he
  simp [ackHit]

/-- Claim C3: every run publishes through at most one pipelined transaction;
any transaction queued pairs exactly one `XADD` to the response stream with
the `XACK` of the input message (so publish and ack cannot be separated);
every path with a known request id that reaches publication executes exactly
one such transaction; no standalone ack is ever issued on those paths; a
failed transaction is logged and nothing is retried, leaving the message
unacknowledged (hence pending and reclaimable). -/
theorem c3_publish_ack_pipeline (w : World) (cache : Option (List String)) (msg : XMessage) :
    (∀ cmds ok, Effect.txExec cmds ok ∈ (handleRequest w cache msg).trace →
        ok = w.execOk ∧ ∃ e, cmds = respTx msg e)
    ∧ txCount (handleRequest w cache msg).trace ≤ 1
    ∧ (((∃ r, (handleRequest w cache msg).outcome = .parseFail r)
        ∨ (∃ e, (handleRequest w cache msg).outcome = .spawnFail e)
        ∨ (∃ en, (handleRequest w cache msg).outcome = .published en)) →
          txCount (handleRequest w cache msg).trace = 1)
    ∧ ((handleRequest w cache msg).outcome ≠ .noId →
          ∀ s g i, Effect.ackCall s g i ∉ (handleRequest w cache msg).trace)
    ∧ (∀ cmds, Effect.txExec cmds false ∈ (handleRequest w cache msg).trace →
          Effect.logError ∈ (handleRequest w cache msg).trace)
    ∧ (w.execOk = false → (handleRequest w cache msg).outcome ≠ .noId →
          ackedIn (handleRequest w cache msg).trace msg.msgId = false) := by
  rcases handleRequest_cases w cache msg with
    ⟨hp, h2⟩ | ⟨rawId, r, hp, h2⟩ | ⟨rawId, command, env, t, e, hp, hst, h2⟩ |
    ⟨rawId, command, env, t, es, o, hp, hst, hsv, h2⟩ |
    ⟨rawId, command, env, t, es, hp, hst, hsv, h2⟩ |
    ⟨rawId, command, env, t, es, res, out, tEnd, hp, hst, hsv, h2⟩
  · rw [h2]
    refine ⟨?_, ?_, ?_, ?_, ?_, ?_⟩
    · intro cmds ok h; simp at h
    · simp [txCount, isTx]
    · rintro (⟨r, h⟩ | ⟨e, h⟩ | ⟨en, h⟩) <;> simp at h
    · intro hne; exact absurd rfl hne
    · intro cmds h; simp at h
    · intro _ hne; exact absurd rfl hne
  · rw [h2]
    by_cases hek : w.execOk <;>
      refine ⟨?_, ?_, ?_, ?_, ?_, ?_⟩ <;>
      simp_all [sendFailure, sendResponseE, txCount, isTx, ackedIn, ackHit, respTx]
  · rw [h2]
    have hes0 := supervise_txCount w.pid w.sched ("") true
    by_cases hek : w.execOk <;>
      refine ⟨?_, ?_, ?_, ?_, ?_, ?_⟩ <;>
      simp_all [sendFailure, sendResponseE, txCount, isTx, ackedIn, ackHit, respTx]
  · rw [h2]
    have hes : es = (supervise w.pid w.sched ("") true).1 := by rw [hsv]
    subst hes
    have hes0 : List.countP isTx (supervise w.pid w.sched ("") true).1 = 0 :=
      supervise_txCount w.pid w.sched ("") true
    have hesk := supervise_fx_kills w.sched w.pid ("") true
    refine ⟨?_, ?_, ?_, ?_, ?_, ?_⟩
    · intro cmds ok h
      simp only [List.mem_cons] at h
      rcases h with h | h | h
      · cases h
      · cases h
      · obtain ⟨p, s, hk⟩ := hesk _ h; cases hk
    · simp [txCount, List.countP_cons, isTx, hes0]
    · rintro (⟨r, h⟩ | ⟨e, h⟩ | ⟨en, h⟩) <;> simp at h
    · intro _ s g i h
      simp only [List.mem_cons] at h
      rcases h with h | h | h
      · cases h
      · cases h
      · obtain ⟨p, ss, hk⟩ := hesk _ h; cases hk
    · intro cmds h
      simp only [List.mem_cons] at h
      rcases h with h | h | h
      · cases h
      · cases h
      · obtain ⟨p, ss, hk⟩ := hesk _ h; cases hk
    · intro _ _
      rw [ackedIn, List.any_eq_false]
      intro e he
      simp only [List.mem_cons] at he
      rcases he with rfl | rfl | he
      · simp [ackHit]
      · simp [ackHit]
      · simp [supervise_no_ack w.pid w.sched ("") true msg.msgId e he]
  · rw [h2]
    have hes : es = (supervise w.pid w.sched ("") true).1 := by rw [hsv]
    subst hes
    have hes0 : List.countP isTx (supervise w.pid w.sched ("") true).1 = 0 :=
      supervise_txCount w.pid w.sched ("") true
    have hesk := supervise_fx_kills w.sched w.pid ("") true
    refine ⟨?_, ?_, ?_, ?_, ?_, ?_⟩
    · intro cmds ok h
      simp only [List.mem_cons] at h
      rcases h with h | h | h
      · cases h
      · cases h
      · rw [List.mem_append] at h
        rcases h with h | h
        · obtain ⟨p, s, hk⟩ := hesk _ h; cases hk
        · simp at h
    · simp [txCount, List.countP_cons, List.countP_append, isTx, hes0]
    · rintro (⟨r, h⟩ | ⟨e, h⟩ | ⟨en, h⟩) <;> simp at h
    · intro _ s g i h
      simp only [List.mem_cons] at h
      rcases h with h | h | h
      · cases h
      · cases h
      · rw [List.mem_append] at h
        rcases h with h | h
        · obtain ⟨p, ss, hk⟩ := hesk _ h; cases hk
        · simp at h
    · intro cmds h
      simp only [List.mem_cons] at h
      rcases h with h | h | h
      · cases h
      · cases h
      · rw [List.mem_append] at h
        rcases h with h | h
        · obtain ⟨p, ss, hk⟩ := hesk _ h; cases hk
        · simp at h
    · intro _ _
      rw [ackedIn, List.any_eq_false]
      intro e he
      simp only [List.mem_cons] at he
      rcases he with rfl | rfl | he
      · simp [ackHit]
      · simp [ackHit]
      · rw [List.mem_append] at he
        rcases he with he | he
        · simp [supervise_no_ack w.pid w.sched ("") true msg.msgId e he]
        · simp at he
          subst he
          simp [ackHit]
  · rw [h2]
    have hes : es = (supervise w.pid w.sched ("") true).1 := by rw [hsv]
    subst hes
    have hes0 : List.countP isTx (supervise w.pid w.sched ("") true).1 = 0 :=
      supervise_txCount w.pid w.sched ("") true
    have hesk := supervise_fx_kills w.sched w.pid ("") true
    refine ⟨?_, ?_, ?_, ?_, ?_, ?_⟩
    · intro cmds ok h
      simp only [List.mem_cons] at h
      rcases h with h | h | h
      · cases h
      · cases h
      · rw [List.mem_append] at h
        rcases h with h | h
        · rw [List.mem_append] at h
          rcases h with h | h
          · obtain ⟨p, s, hk⟩ := hesk _ h; cases hk
          · by_cases hek : w.execOk
            · simp [sendResponseE, hek] at h
              rcases h with ⟨rfl, rfl⟩
              exact ⟨hek.symm, _, rfl⟩
            · simp [sendResponseE, hek] at h
              rcases h with ⟨rfl, rfl⟩
              have hf : w.execOk = false := by
                cases hb : w.execOk
                · rfl
                · exact absurd hb hek
              exact ⟨hf.symm, _, rfl⟩
        · simp at h
    · by_cases hek : w.execOk <;>
        simp [txCount, List.countP_cons, List.countP_append, isTx, hes0,
          sendResponseE, hek]
    · intro _
      by_cases hek : w.execOk <;>
        simp [txCount, List.countP_cons, List.countP_append, isTx, hes0,
          sendResponseE, hek]
    · intro _ s g i h
      simp only [List.mem_cons] at h
      rcases h with h | h | h
      · cases h
      · cases h
      · rw [List.mem_append] at h
        rcases h with h | h
        · rw [List.mem_append] at h
          rcases h with h | h
          · obtain ⟨p, ss, hk⟩ := hesk _ h; cases hk
          · by_cases hek : w.execOk <;> simp [sendResponseE, hek] at h
        · simp at h
    · intro cmds h
      simp only [List.mem_cons] at h
      rcases h with h | h | h
      · cases h
      · cases h
      · rw [List.mem_append] at h
        rcases h with h | h
        · rw [List.mem_append] at h
          rcases h with h | h
          · obtain ⟨p, ss, hk⟩ := hesk _ h; cases hk
          · by_cases hek : w.execOk
            · simp [sendResponseE, hek] at h
            · simp [sendResponseE, hek, List.mem_append]
        · simp at h
    · intro hek _
      rw [ackedIn, List.any_eq_false]
      intro e he
      simp only [List.mem_cons] at he
      rcases he with rfl | rfl | he
      · simp [ackHit]
      · simp [ackHit]
      · rw [List.mem_append] at he
        rcases he with he | he
        · rw [List.mem_append] at he
          rcases he with he | he
          · simp [supervise_no_ack w.pid w.sched ("") true msg.msgId e he]
          · simp [sendResponseE, hek] at he
            rcases he with rfl | rfl <;> simp [ackHit, hek]
        · simp at he
          subst he
          simp [ackHit]

/-- Claim C3 witness: a concrete run with a failing transaction executes the
pipeline once and leaves the message unacknowledged. -/
theorem c3_witness :
    wExecFail.execOk = false
    ∧ (handleRequest wExecFail none msgOk).outcome ≠ HrOutcome.noId
    ∧ ackedIn (handleRequest wExecFail none msgOk).trace msgOk.msgId = false :=
  ⟨by decide, by decide,
    (c3_publish_ack_pipeline wExecFail none msgOk).2.2.2.2.2 (by decide) (by decide)⟩

/-- Claim C4: a message without a string `id` field is acknowledged and
abandoned without a response; every parse rejection of a message with an id
publishes a failure response whose entry has pid −1, code 128, output equal
to the worker tag followed by the reason, and equal start/end timestamps; a
non-string or undecodable `command`, an empty command array, a missing or
undecodable `env`, and a missing or unparseable `timeout` each reject with
the corresponding reason. -/
theorem c4_parse_rejection (w : World) (cache : Option (List String)) (msg : XMessage) :
    (getStr msg kId = none →
        handleRequest w cache msg =
          ⟨cache, [.ackCall spawnStream cgroupName msg.msgId], .noId⟩)
    ∧ (∀ rawId r, getStr msg kId = some rawId →
        (handleRequest w cache msg).outcome = .parseFail r →
        (handleRequest w cache msg).trace =
          Effect.txExec (respTx msg ⟨rawId, -1, 128, mgrTag w.uuid ++ r, w.failNow, w.failNow⟩)
              w.execOk :: (if w.execOk then [] else [Effect.logError]))
    ∧ (∀ rawId, getStr msg kId = some rawId →
        ((getStr msg kCommand = none →
            (handleRequest w cache msg).outcome = .parseFail badCommandSpec)
         ∧ (∀ rc e, getStr msg kCommand = some rc → w.jdec rc = .error e →
            (handleRequest w cache msg).outcome = .parseFail (badCommandSpec ++ ": " ++ e))
         ∧ (∀ rc, getStr msg kCommand = some rc → w.jdec rc = .ok [] →
            (handleRequest w cache msg).outcome = .parseFail badCommandSpec)
         ∧ (∀ rc cv, getStr msg kCommand = some rc → w.jdec rc = .ok cv →
            1 ≤ cv.length → getStr msg kEnv = none →
            (handleRequest w cache msg).outcome = .parseFail badEnvSpec)
         ∧ (∀ rc cv re e, getStr msg kCommand = some rc → w.jdec rc = .ok cv →
            1 ≤ cv.length → getStr msg kEnv = some re → w.jdec re = .error e →
            (handleRequest w cache msg).outcome = .parseFail (badEnvSpec ++ ": " ++ e))
         ∧ (∀ rc cv re ev, getStr msg kCommand = some rc → w.jdec rc = .ok cv →
            1 ≤ cv.length → getStr msg kEnv = some re → w.jdec re = .ok ev →
            getStr msg kTimeout = none →
            (handleRequest w cache msg).outcome = .parseFail badTimeoutSpec)
         ∧ (∀ rc cv re ev rt e, getStr msg kCommand = some rc → w.jdec rc = .ok cv →
            1 ≤ cv.length → getStr msg kEnv = some re → w.jdec re = .ok ev →
            getStr msg kTimeout = some rt → w.pfloat rt = .error e →
            (handleRequest w cache msg).outcome =
              .parseFail (badTimeoutSpec ++ ": " ++ e)))) := by
  refine ⟨?_, ?_, ?_⟩
  · intro hid
    simp [handleRequest, parseReq, hid]
  · intro rawId r hid hoc
    rcases handleRequest_cases w cache msg with
      ⟨hp, h2⟩ | ⟨a, r2, hp, h2⟩ | ⟨a, command, env, t, e, hp, hst, h2⟩ |
      ⟨a, command, env, t, es, o, hp, hst, hsv, h2⟩ |
      ⟨a, command, env, t, es, hp, hst, hsv, h2⟩ |
      ⟨a, command, env, t, es, res, out, tEnd, hp, hst, hsv, h2⟩
    · rw [h2] at hoc; simp at hoc
    · have ha : getStr msg kId = some a := parseReq_fail_id w msg a r2 hp
      rw [hid] at ha
      obtain rfl : a = rawId := (Option.some.inj ha).symm
      rw [h2] at hoc ⊢
      obtain rfl : r2 = r := by
        simpa using hoc
      simp [sendFailure, sendResponseE, failEntry]
    · rw [h2] at hoc; simp at hoc
    · rw [h2] at hoc; simp at hoc
    · rw [h2] at hoc; simp at hoc
    · rw [h2] at hoc; simp at hoc
  · intro rawId hid
    refine ⟨?_, ?_, ?_, ?_, ?_, ?_, ?_⟩
    · intro hc
      simp [handleRequest, parseReq, hid, hc]
    · intro rc e hc hj
      simp [handleRequest, parseReq, hid, hc, hj]
    · intro rc hc hj
      simp [handleRequest, parseReq, hid, hc, hj]
    · intro rc cv hc hj hlen he
      have hne : ¬ cv.length < 1 := by omega
      simp [handleRequest, parseReq, hid, hc, hj, hne, he]
    · intro rc cv re e hc hj hlen he hje
      have hne : ¬ cv.length < 1 := by omega
      simp [handleRequest, parseReq, hid, hc, hj, hne, he, hje]
    · intro rc cv re ev hc hj hlen he hje ht
      have hne : ¬ cv.length < 1 := by omega
      simp [handleRequest, parseReq, hid, hc, hj, hne, he, hje, ht]
    · intro rc cv re ev rt e hc hj hlen he hje ht hpf
      have hne : ¬ cv.length < 1 := by omega
      simp [handleRequest, parseReq, hid, hc, hj, hne, he, hje, ht, hpf]

/-- Claim C4 witness: concrete id-less and bad-command messages take the
documented rejection paths. -/
theorem c4_witness :
    getStr msgNoId kId = none
    ∧ handleRequest wBase none msgNoId =
        ⟨none, [.ackCall spawnStream cgroupName msgNoId.msgId], .noId⟩
    ∧ (handleRequest wBase none msgBadCmd).outcome =
        .parseFail (badCommandSpec ++ ": " ++ ("invalid character")) :=
  ⟨by decide,
   (c4_parse_rejection wBase none msgNoId).1 (by decide),
   ((c4_parse_rejection wBase none msgBadCmd).2.2 ("r1") (by decide)).2.1
     ("not-json") ("invalid character") (by decide) (by decide)⟩

/-- Claim C5: when the per-request timer fires during supervision, the
literal sentinel bytes are appended to the shared output buffer, SIGKILL is
sent to the negated pid (the whole process group), the timer channel is
disarmed so it can never fire again, and the task keeps waiting on the
reaper; a child overrunning its timeout whose reaper then reports death by
SIGKILL yields a response with code 137 whose output contains the
sentinel. -/
theorem c5_timeout_path (w : World) (cache : Option (List String)) (msg : XMessage)
    (pid : Int) (rest : List Ev) (out : String) :
    (supervise pid (.timer :: rest) out true =
      (Effect.kill (-pid) sigKILL ::
          (supervise pid rest (out ++ timeoutSentinel) false).1,
       (supervise pid rest (out ++ timeoutSentinel) false).2))
    ∧ (supervise pid (.timer :: rest) out false = supervise pid rest out false)
    ∧ (∀ es res outF t,
        supervise pid (.timer :: rest) out true = (es, .finished res outF t) →
        ∃ suf, outF = out ++ timeoutSentinel ++ suf)
    ∧ (∀ rawId command env t m tEnd rest2,
        parseReq w msg = .ok rawId command env t → w.startErr = none →
        w.sched = .timer :: .reaper (some (.exitErr (.signaled sigKILL) m)) tEnd :: rest2 →
        (handleRequest w cache msg).outcome =
          .published ⟨rawId, w.pid, 137, timeoutSentinel ++ termAnno w sigKILL,
            w.tStart, tEnd⟩
        ∧ Effect.kill (-w.pid) sigKILL ∈ (handleRequest w cache msg).trace) := by
  refine ⟨by simp [supervise], by simp [supervise], ?_, ?_⟩
  · intro es res outF t h
    simp [supervise] at h
    have h2 : supervise pid rest (out ++ timeoutSentinel) false =
        ((supervise pid rest (out ++ timeoutSentinel) false).1,
          SupOut.finished res outF t) := by
      rw [← h.2]
    obtain ⟨suf, hsuf⟩ :=
      supervise_out_extends rest pid (out ++ timeoutSentinel) false _ res outF t h2
    exact ⟨suf, hsuf⟩
  · intro rawId command env t m tEnd rest2 hp hst hsch
    have hsv : supervise w.pid w.sched ("") true =
        ([Effect.kill (-w.pid) sigKILL],
          SupOut.finished (some (.exitErr (.signaled sigKILL) m))
            (("") ++ timeoutSentinel) tEnd) := by
      rw [hsch]
      simp [supervise]
    constructor
    · simp [handleRequest, hp, hst, runStarted, hsv, waitResultEntry, classify, sigKILL]
    · simp [handleRequest, hp, hst, runStarted, hsv]

/-- Claim C6: when the drain broadcast fires during supervision the worker
SIGKILLs the whole process group, waits for the reaper, and returns without
publishing a response and without acknowledging the message; drain is the
only completed path of a spawned child that skips publication. -/
theorem c6_drain_path (w : World) (cache : Option (List String)) (msg : XMessage)
    (pid : Int) (rest : List Ev) (out : String) (armed : Bool) :
    (rest.any isReaperEv = true →
        supervise pid (.drain :: rest) out armed =
          ([Effect.kill (-pid) sigKILL], .drained))
    ∧ (∀ rawId command env t, parseReq w msg = .ok rawId command env t →
        w.startErr = none →
        (handleRequest w cache msg).outcome = .drained →
        (∀ cmds ok, Effect.txExec cmds ok ∉ (handleRequest w cache msg).trace)
        ∧ ackedIn (handleRequest w cache msg).trace msg.msgId = false
        ∧ Effect.kill (-w.pid) sigKILL ∈ (handleRequest w cache msg).trace)
    ∧ (∀ rawId command env t, parseReq w msg = .ok rawId command env t →
        w.startErr = none →
        (handleRequest w cache msg).outcome ≠ .drained →
        (handleRequest w cache msg).outcome ≠ .blocked →
        ∃ cmds, Effect.txExec cmds w.execOk ∈ (handleRequest w cache msg).trace) := by
  refine ⟨?_, ?_, ?_⟩
  · intro hr
    simp [supervise, hr]
  · intro rawId command env t hp hst hoc
    rcases handleRequest_cases w cache msg with
      ⟨hp0, h2⟩ | ⟨a, r2, hp0, h2⟩ | ⟨a, command2, env2, t2, e, hp0, hst0, h2⟩ |
      ⟨a, command2, env2, t2, es, o, hp0, hst0, hsv, h2⟩ |
      ⟨a, command2, env2, t2, es, hp0, hst0, hsv, h2⟩ |
      ⟨a, command2, env2, t2, es, res, out2, tEnd, hp0, hst0, hsv, h2⟩
    · rw [hp] at hp0; cases hp0
    · rw [hp] at hp0; cases hp0
    · rw [h2] at hoc; simp at hoc
    · rw [h2] at hoc; simp at hoc
    · rw [h2]
      have hes : es = (supervise w.pid w.sched ("") true).1 := by rw [hsv]
      have hsv2 : supervise w.pid w.sched ("") true =
          ((supervise w.pid w.sched ("") true).1, SupOut.drained) := by
        rw [hsv, hes]
      have hkill := supervise_drained_kill w.sched w.pid ("") true _ hsv2
      subst hes
      have hesk := supervise_fx_kills w.sched w.pid ("") true
      refine ⟨?_, ?_, ?_⟩
      · intro cmds ok h
        simp only [List.mem_cons] at h
        rcases h with h | h | h
        · cases h
        · cases h
        · rw [List.mem_append] at h
          rcases h with h | h
          · obtain ⟨p, s, hk⟩ := hesk _ h; cases hk
          · simp at h
      · rw [ackedIn, List.any_eq_false]
        intro e he
        simp only [List.mem_cons] at he
        rcases he with rfl | rfl | he
        · simp [ackHit]
        · simp [ackHit]
        · rw [List.mem_append] at he
          rcases he with he | he
          · simp [supervise_no_ack w.pid w.sched ("") true msg.msgId e he]
          · simp at he
            subst he
            simp [ackHit]
      · simp only [List.mem_cons, List.mem_append]
        exact Or.inr (Or.inr (Or.inl hkill))
    · rw [h2] at hoc; simp at hoc
  · intro rawId command env t hp hst hnd hnb
    rcases handleRequest_cases w cache msg with
      ⟨hp0, h2⟩ | ⟨a, r2, hp0, h2⟩ | ⟨a, command2, env2, t2, e, hp0, hst0, h2⟩ |
      ⟨a, command2, env2, t2, es, o, hp0, hst0, hsv, h2⟩ |
      ⟨a, command2, env2, t2, es, hp0, hst0, hsv, h2⟩ |
      ⟨a, command2, env2, t2, es, res, out2, tEnd, hp0, hst0, hsv, h2⟩
    · rw [hp] at hp0; cases hp0
    · rw [hp] at hp0; cases hp0
    · rw [hst] at hst0; cases hst0
    · rw [h2] at hnb; exact absurd rfl hnb
    · rw [h2] at hnd; exact absurd rfl hnd
    · refine ⟨respTx msg (waitResultEntry w a res out2 tEnd), ?_⟩
      rw [h2]
      simp [sendResponseE]

/-- Claim C5 witness: a concrete timed-out run yields code 137 with the
sentinel leading the output. -/
theorem c5_witness :
    parseReq wTimeout msgOk = .ok ("r1") [("/bin/true")] [] 10
    ∧ (handleRequest wTimeout none msgOk).outcome =
        .published ⟨("r1"), wTimeout.pid, 137,
          timeoutSentinel ++ termAnno wTimeout sigKILL, wTimeout.tStart, 2⟩ :=
  ⟨by decide,
    ((c5_timeout_path wTimeout none msgOk 0 [] ("")).2.2.2 ("r1") [("/bin/true")] []
      10 ("signal: killed") 2 [] (by decide) (by decide) (by decide)).1⟩

/-- Claim C6 witness: a concrete drained run publishes nothing and leaves the
message unacknowledged. -/
theorem c6_witness :
    (handleRequest wDrain none msgOk).outcome = .drained
    ∧ ackedIn (handleRequest wDrain none msgOk).trace msgOk.msgId = false :=
  ⟨by decide,
    ((c6_drain_path wDrain none msgOk 0 [] ("") true).2.1 ("r1") [("/bin/true")] []
      10 (by decide) (by decide) (by decide)).2.1⟩

/-- Claim C7: the child's environment is the captured worker environment
followed by the request's env entries; with last-entry-wins deduplication a
key present in the request env resolves to the request's entry; the worker
environment is captured exactly once on first use and an initialised cache is
never overwritten. -/
theorem c7_env_capture (w : World) (cache : Option (List String)) (msg : XMessage)
    (rawId : String) (command env : List String) (t : Rat)
    (hp : parseReq w msg = .ok rawId command env t) :
    (∀ pr ar evr okr, Effect.start pr ar evr okr ∈ (handleRequest w cache msg).trace →
        evr = (cache.getD w.osEnviron) ++ env)
    ∧ (handleRequest w none msg).envCache = some w.osEnviron
    ∧ (∀ vs msg2, (handleRequest w (some vs) msg2).envCache = some vs)
    ∧ (∀ k, env.filter (fun e2 => envKey e2 == k) ≠ [] →
        lookupEnvLast ((cache.getD w.osEnviron) ++ env) k = lookupEnvLast env k) := by
  refine ⟨?_, ?_, ?_, ?_⟩
  · intro pr ar evr okr h
    rcases handleRequest_cases w cache msg with
      ⟨hp0, h2⟩ | ⟨a, r2, hp0, h2⟩ | ⟨a, command2, env2, t2, e, hp0, hst0, h2⟩ |
      ⟨a, command2, env2, t2, es, o, hp0, hst0, hsv, h2⟩ |
      ⟨a, command2, env2, t2, es, hp0, hst0, hsv, h2⟩ |
      ⟨a, command2, env2, t2, es, res, out2, tEnd, hp0, hst0, hsv, h2⟩
    · rw [hp] at hp0; cases hp0
    · rw [hp] at hp0; cases hp0
    · rw [hp] at hp0
      obtain ⟨rfl, rfl, rfl, rfl⟩ : rawId = a ∧ command = command2 ∧ env = env2 ∧ t = t2 := by
        simpa using hp0
      rw [h2] at h
      simp only [List.mem_cons] at h
      rcases h with h | h | h
      · cases h
      · obtain ⟨-, -, rfl, -⟩ : pr = command.headD ("") ∧ ar = command.tail ∧
            evr = cache.getD w.osEnviron ++ env ∧ okr = false := by
          simpa using h
        rfl
      · rw [List.mem_append] at h
        rcases h with h | h
        · by_cases hek : w.execOk <;> simp [sendFailure, sendResponseE, hek] at h
        · simp at h
    · rw [hp] at hp0
      obtain ⟨rfl, rfl, rfl, rfl⟩ : rawId = a ∧ command = command2 ∧ env = env2 ∧ t = t2 := by
        simpa using hp0
      rw [h2] at h
      have hes : es = (supervise w.pid w.sched ("") true).1 := by rw [hsv]
      subst hes
      simp only [List.mem_cons] at h
      rcases h with h | h | h
      · cases h
      · obtain ⟨-, -, rfl, -⟩ : pr = command.headD ("") ∧ ar = command.tail ∧
            evr = cache.getD w.osEnviron ++ env ∧ okr = true := by
          simpa using h
        rfl
      · obtain ⟨p, sg, hk⟩ := supervise_fx_kills w.sched w.pid ("") true _ h
        cases hk
    · rw [hp] at hp0
      obtain ⟨rfl, rfl, rfl, rfl⟩ : rawId = a ∧ command = command2 ∧ env = env2 ∧ t = t2 := by
        simpa using hp0
      rw [h2] at h
      have hes : es = (supervise w.pid w.sched ("") true).1 := by rw [hsv]
      subst hes
      simp only [List.mem_cons] at h
      rcases h with h | h | h
      · cases h
      · obtain ⟨-, -, rfl, -⟩ : pr = command.headD ("") ∧ ar = command.tail ∧
            evr = cache.getD w.osEnviron ++ env ∧ okr = true := by
          simpa using h
        rfl
      · rw [List.mem_append] at h
        rcases h with h | h
        · obtain ⟨p, sg, hk⟩ := supervise_fx_kills w.sched w.pid ("") true _ h
          cases hk
        · simp at h
    · rw [hp] at hp0
      obtain ⟨rfl, rfl, rfl, rfl⟩ : rawId = a ∧ command = command2 ∧ env = env2 ∧ t = t2 := by
        simpa using hp0
      rw [h2] at h
      have hes : es = (supervise w.pid w.sched ("") true).1 := by rw [hsv]
      subst hes
      simp only [List.mem_cons] at h
      rcases h with h | h | h
      · cases h
      · obtain ⟨-, -, rfl, -⟩ : pr = command.headD ("") ∧ ar = command.tail ∧
            evr = cache.getD w.osEnviron ++ env ∧ okr = true := by
          simpa using h
        rfl
      · rw [List.mem_append] at h
        rcases h with h | h
        · rw [List.mem_append] at h
          rcases h with h | h
          · obtain ⟨p, sg, hk⟩ := supervise_fx_kills w.sched w.pid ("") true _ h
            cases hk
          · by_cases hek : w.execOk <;> simp [sendResponseE, hek] at h
        · simp at h
  · rcases handleRequest_cases w none msg with
      ⟨hp0, h2⟩ | ⟨a, r2, hp0, h2⟩ | ⟨a, command2, env2, t2, e, hp0, hst0, h2⟩ |
      ⟨a, command2, env2, t2, es, o, hp0, hst0, hsv, h2⟩ |
      ⟨a, command2, env2, t2, es, hp0, hst0, hsv, h2⟩ |
      ⟨a, command2, env2, t2, es, res, out2, tEnd, hp0, hst0, hsv, h2⟩
    · rw [hp] at hp0; cases hp0
    · rw [hp] at hp0; cases hp0
    all_goals simp [h2]
  · intro vs msg2
    rcases handleRequest_cases w (some vs) msg2 with
      ⟨hp0, h2⟩ | ⟨a, r2, hp0, h2⟩ | ⟨a, command2, env2, t2, e, hp0, hst0, h2⟩ |
      ⟨a, command2, env2, t2, es, o, hp0, hst0, hsv, h2⟩ |
      ⟨a, command2, env2, t2, es, hp0, hst0, hsv, h2⟩ |
      ⟨a, command2, env2, t2, es, res, out2, tEnd, hp0, hst0, hsv, h2⟩
    all_goals simp [h2]
  · intro k hk
    rw [lookupEnvLast, lookupEnvLast, List.filter_append]
    exact List.getLast?_append_of_ne_nil _ hk

/-- Claim C7 witness: a concrete request whose env overrides worker key `A`
resolves `A` to the request's entry, and the worker env is captured. -/
theorem c7_witness :
    parseReq wBase msgEnvOv = .ok ("r1") [("/bin/true")] [("A=9")] 10
    ∧ (handleRequest wBase none msgEnvOv).envCache = some wBase.osEnviron
    ∧ lookupEnvLast (((none : Option (List String)).getD wBase.osEnviron) ++ [("A=9")]) ("A")
        = lookupEnvLast [("A=9")] ("A") :=
  ⟨by decide,
    (c7_env_capture wBase none msgEnvOv ("r1") [("/bin/true")] [("A=9")] 10
      (by decide)).2.1,
    (c7_env_capture wBase none msgEnvOv ("r1") [("/bin/true")] [("A=9")] 10
      (by decide)).2.2.2 ("A") (by decide)⟩

/-- Claim C8 counterexample: the parser admits the negative timeout `-1`
(ParseFloat parses it) and the request proceeds to execution — refuting
"never admits a negative timeout". -/
theorem c8_negative_timeout_counterexample :
    decParseFloat ("-1") = .ok (-1)
    ∧ ((-1 : Rat) < 0)
    ∧ parseReq wBase msgNegTimeout = .ok ("r1") [("/bin/true")] [] (-1)
    ∧ (handleRequest wBase none msgNegTimeout).outcome =
        .published ⟨("r1"), 42, 0, (""), 0, 1⟩ :=
  ⟨by decide, by decide, by decide, by decide⟩

/-- Claim C8 (amended): the parser rejects exactly those `timeout` fields
that are absent, not a string, or not parseable by ParseFloat, and admits
every parseable value — including negative ones, which are not rejected. -/
theorem c8_timeout_parse_amended (w : World) (cache : Option (List String))
    (msg : XMessage) (rawId rc : String) (cv ev : List String) (re : String)
    (hid : getStr msg kId = some rawId)
    (hc : getStr msg kCommand = some rc) (hjc : w.jdec rc = .ok cv)
    (hlen : 1 ≤ cv.length)
    (he : getStr msg kEnv = some re) (hje : w.jdec re = .ok ev) :
    (getStr msg kTimeout = none →
        (handleRequest w cache msg).outcome = .parseFail badTimeoutSpec)
    ∧ (∀ rt e, getStr msg kTimeout = some rt → w.pfloat rt = .error e →
        (handleRequest w cache msg).outcome = .parseFail (badTimeoutSpec ++ ": " ++ e))
    ∧ (∀ rt v, getStr msg kTimeout = some rt → w.pfloat rt = .ok v →
        parseReq w msg = .ok rawId cv ev v
        ∧ ∀ r, (handleRequest w cache msg).outcome ≠ .parseFail r) := by
  have hne : ¬ cv.length < 1 := by omega
  refine ⟨?_, ?_, ?_⟩
  · intro ht
    simp [handleRequest, parseReq, hid, hc, hjc, hne, he, hje, ht]
  · intro rt e ht hpf
    simp [handleRequest, parseReq, hid, hc, hjc, hne, he, hje, ht, hpf]
  · intro rt v ht hpf
    have hp : parseReq w msg = .ok rawId cv ev v := by
      simp [parseReq, hid, hc, hjc, hne, he, hje, ht, hpf]
    refine ⟨hp, ?_⟩
    intro r hoc
    rcases handleRequest_cases w cache msg with
      ⟨hp0, h2⟩ | ⟨a, r2, hp0, h2⟩ | ⟨a, command2, env2, t2, e, hp0, hst0, h2⟩ |
      ⟨a, command2, env2, t2, es, o, hp0, hst0, hsv, h2⟩ |
      ⟨a, command2, env2, t2, es, hp0, hst0, hsv, h2⟩ |
      ⟨a, command2, env2, t2, es, res, out2, tEnd, hp0, hst0, hsv, h2⟩
    · rw [hp] at hp0; cases hp0
    · rw [hp] at hp0; cases hp0
    · rw [h2] at hoc; simp at hoc
    · rw [h2] at hoc; simp at hoc
    · rw [h2] at hoc; simp at hoc
    · rw [h2] at hoc; simp at hoc

/-- Claim C8 witness: the concrete negative-timeout request parses and is not
rejected. -/
theorem c8_witness :
    parseReq wBase msgNegTimeout = .ok ("r1") [("/bin/true")] [] (-1)
    ∧ ∀ r, (handleRequest wBase none msgNegTimeout).outcome ≠ .parseFail r := by
  have h := (c8_timeout_parse_amended wBase none msgNegTimeout ("r1") cmdRawOne
    [("/bin/true")] [] emptyArrRaw (by decide) (by decide) (by decide) (by decide)
    (by decide) (by decide)).2.2 ("-1") (-1) (by decide) (by decide)
  exact h

/-- Every group-read call issued by the read loop names the spawn stream,
the consumer group, the worker identity, the new-entries cursor and a batch
limit of 100. -/
theorem readStep_read_args (uuid : String) :
    ∀ (rs : List (Except String (List String))) (s g c cur : String) (n : Nat),
      Effect.xreadGroup s g c cur n ∈ readStep uuid rs →
      s = spawnStream ∧ g = cgroupName ∧ c = uuid ∧ cur = cursorNew ∧ n = 100 := by
  intro rs
  induction rs with
  | nil => intro s g c cur n h; simp [readStep] at h
  | cons r rest ih =>
    intro s g c cur n h
    cases r with
    | error e =>
      simp [readStep] at h
      exact h
    | ok msgs =>
      simp [readStep] at h
      rcases h with h | h
      · exact h
      · exact ih s g c cur n h

/-- One task is spawned per message delivered by the error-free head of the
read schedule. -/
theorem readStep_spawn_count (uuid : String) :
    ∀ (rs : List (Except String (List String))) (mid : String),
      (readStep uuid rs).count (Effect.spawnTask mid) = (okMsgs rs).count mid := by
  intro rs
  induction rs with
  | nil => intro mid; simp [readStep, okMsgs]
  | cons r rest ih =>
    intro mid
    cases r with
    | error e => simp [readStep, okMsgs, List.count_cons]
    | ok msgs =>
      have hinj : Function.Injective Effect.spawnTask := by
        intro a b hab
        cases hab
        rfl
      simp [readStep, okMsgs, List.count_cons, List.count_append, ih,
        List.count_map_of_injective msgs Effect.spawnTask hinj mid]

/-- A transport error anywhere in the read schedule makes the loop end in a
fatal log (logrus `Fatal` exits the process). -/
theorem readStep_err_fatal (uuid : String) :
    ∀ (rs : List (Except String (List String))) (e : String),
      (.error e) ∈ rs → (readStep uuid rs).getLast? = some Effect.logFatal := by
  intro rs
  induction rs with
  | nil => intro e h; simp at h
  | cons r rest ih =>
    intro e h
    cases r with
    | error e2 => simp [readStep]
    | ok msgs =>
      have hmem : (Except.error e : Except String (List String)) ∈ rest := by
        simpa using h
      have hrest := ih e hmem
      have hne : readStep uuid rest ≠ [] := by
        intro hnil
        rw [hnil] at hrest
        simp at hrest
      rw [readStep]
      rw [← List.cons_append]
      rw [List.getLast?_append_of_ne_nil _ hne]
      exact hrest

/-- Claim C9: at startup the worker issues the create-group-with-stream call
for the spawn stream, group `icinga2-procmgr`, starting id `0-0`; a
`BUSYGROUP`-prefixed error is ignored and any other creation error is fatal;
the read loop issues group reads with the `>` cursor, count 100 and
consumer = worker identity, spawns one task per returned message, and treats
any read error as fatal. -/
theorem c9_readloop_protocol (w : RWorld) (hok : w.uuidErr = false) :
    ((readLoop w).head? = some (.xgroupCreate spawnStream cgroupName startIdZero))
    ∧ (∀ e, w.createErr = some e → strHasPfx e ("BUSYGROUP ") = false →
        readLoop w = [.xgroupCreate spawnStream cgroupName startIdZero, .logFatal])
    ∧ (∀ e, w.createErr = some e → strHasPfx e ("BUSYGROUP ") = true →
        readLoop w =
          .xgroupCreate spawnStream cgroupName startIdZero :: readStep w.uuid w.reads)
    ∧ (w.createErr = none →
        readLoop w =
          .xgroupCreate spawnStream cgroupName startIdZero :: readStep w.uuid w.reads)
    ∧ (∀ s g c cur n, Effect.xreadGroup s g c cur n ∈ readLoop w →
        s = spawnStream ∧ g = cgroupName ∧ c = w.uuid ∧ cur = cursorNew ∧ n = 100)
    ∧ ((w.createErr = none ∨
          (∃ e, w.createErr = some e ∧ strHasPfx e ("BUSYGROUP ") = true)) →
        ∀ mid, (readLoop w).count (Effect.spawnTask mid) = (okMsgs w.reads).count mid)
    ∧ ((w.createErr = none ∨
          (∃ e, w.createErr = some e ∧ strHasPfx e ("BUSYGROUP ") = true)) →
        ∀ e2, (.error e2) ∈ w.reads →
        (readLoop w).getLast? = some Effect.logFatal) := by
  have hloop : ∀ (hgood : w.createErr = none ∨
      (∃ e, w.createErr = some e ∧ strHasPfx e ("BUSYGROUP ") = true)),
      readLoop w =
        .xgroupCreate spawnStream cgroupName startIdZero :: readStep w.uuid w.reads := by
    intro hgood
    rcases hgood with hce | ⟨e, hce, hbg⟩
    · simp [readLoop, hok, hce]
    · simp [readLoop, hok, hce, hbg]
  refine ⟨?_, ?_, ?_, ?_, ?_, ?_, ?_⟩
  · rcases hce : w.createErr with _ | e
    · simp [readLoop, hok, hce]
    · by_cases hbg : strHasPfx e ("BUSYGROUP ") <;> simp [readLoop, hok, hce, hbg]
  · intro e hce hbg
    simp [readLoop, hok, hce, hbg]
  · intro e hce hbg
    simp [readLoop, hok, hce, hbg]
  · intro hce
    simp [readLoop, hok, hce]
  · intro s g c cur n h
    rcases hce : w.createErr with _ | e
    · simp [readLoop, hok, hce] at h
      exact readStep_read_args w.uuid w.reads s g c cur n h
    · by_cases hbg : strHasPfx e ("BUSYGROUP ") <;> simp [readLoop, hok, hce, hbg] at h
      exact readStep_read_args w.uuid w.reads s g c cur n h
  · intro hgood mid
    rw [hloop hgood]
    simp [List.count_cons, readStep_spawn_count w.uuid w.reads mid]
  · intro hgood e2 hmem
    rw [hloop hgood]
    have hrest := readStep_err_fatal w.uuid w.reads e2 hmem
    have hne : readStep w.uuid w.reads ≠ [] := by
      intro hnil
      rw [hnil] at hrest
      simp at hrest
    rw [show Effect.xgroupCreate spawnStream cgroupName startIdZero ::
          readStep w.uuid w.reads =
        [Effect.xgroupCreate spawnStream cgroupName startIdZero] ++
          readStep w.uuid w.reads from rfl]
    rw [List.getLast?_append_of_ne_nil _ hne]
    exact hrest

/-- Claim C9 witness: a concrete run with an existing group, one batch and a
subsequent transport error takes the documented shape. -/
theorem c9_witness :
    rwOk.uuidErr = false
    ∧ (readLoop rwOk).head? = some (.xgroupCreate spawnStream cgroupName startIdZero)
    ∧ (readLoop rwOk).getLast? = some Effect.logFatal :=
  ⟨by decide,
    (c9_readloop_protocol rwOk (by decide)).1,
    (c9_readloop_protocol rwOk (by decide)).2.2.2.2.2.2
      (Or.inr ⟨("BUSYGROUP Consumer Group name already exists"), by decide, by decide⟩)
      ("net down") (by decide)⟩

/-- Claim C10: the in-flight reader gate is read-locked only on runs whose
parse succeeded; a parse-rejected (or id-less) request never touches the
gate, still attempts its failure publication (or its ack), and its entire
behaviour is independent of the drain/event schedule — so shutdown's
exclusive acquisition of the gate never waits on it. -/
theorem c10_gate_after_parse (w : World) (cache : Option (List String)) (msg : XMessage) :
    (Effect.gateRLock ∈ (handleRequest w cache msg).trace →
        ∃ rawId command env t, parseReq w msg = .ok rawId command env t)
    ∧ (∀ r, (handleRequest w cache msg).outcome = .parseFail r →
        Effect.gateRLock ∉ (handleRequest w cache msg).trace
        ∧ (∃ cmds, Effect.txExec cmds w.execOk ∈ (handleRequest w cache msg).trace
            ∧ RCmd.xack spawnStream cgroupName msg.msgId ∈ cmds)
        ∧ (∀ sched2, handleRequest { w with sched := sched2 } cache msg
              = handleRequest w cache msg))
    ∧ ((handleRequest w cache msg).outcome = .noId →
        Effect.gateRLock ∉ (handleRequest w cache msg).trace
        ∧ Effect.ackCall spawnStream cgroupName msg.msgId ∈ (handleRequest w cache msg).trace
        ∧ (∀ sched2, handleRequest { w with sched := sched2 } cache msg
              = handleRequest w cache msg)) := by
  refine ⟨?_, ?_, ?_⟩
  · intro h
    rcases handleRequest_cases w cache msg with
      ⟨hp0, h2⟩ | ⟨a, r2, hp0, h2⟩ | ⟨a, command2, env2, t2, e, hp0, hst0, h2⟩ |
      ⟨a, command2, env2, t2, es, o, hp0, hst0, hsv, h2⟩ |
      ⟨a, command2, env2, t2, es, hp0, hst0, hsv, h2⟩ |
      ⟨a, command2, env2, t2, es, res, out2, tEnd, hp0, hst0, hsv, h2⟩
    · rw [h2] at h; simp at h
    · rw [h2] at h
      by_cases hek : w.execOk <;> simp [sendFailure, sendResponseE, hek] at h
    all_goals exact ⟨a, command2, env2, t2, hp0⟩
  · intro r hoc
    rcases handleRequest_cases w cache msg with
      ⟨hp0, h2⟩ | ⟨a, r2, hp0, h2⟩ | ⟨a, command2, env2, t2, e, hp0, hst0, h2⟩ |
      ⟨a, command2, env2, t2, es, o, hp0, hst0, hsv, h2⟩ |
      ⟨a, command2, env2, t2, es, hp0, hst0, hsv, h2⟩ |
      ⟨a, command2, env2, t2, es, res, out2, tEnd, hp0, hst0, hsv, h2⟩
    · rw [h2] at hoc; simp at hoc
    · refine ⟨?_, ?_, ?_⟩
      · rw [h2]
        by_cases hek : w.execOk <;> simp [sendFailure, sendResponseE, hek]
      · refine ⟨respTx msg (failEntry w a r2), ?_, ?_⟩
        · rw [h2]
          simp [sendFailure, sendResponseE]
        · simp [respTx]
      · intro sched2
        have hps : parseReq { w with sched := sched2 } msg = .fail a r2 := hp0
        rw [h2]
        simp [handleRequest, hps]
        rfl
    · rw [h2] at hoc; simp at hoc
    · rw [h2] at hoc; simp at hoc
    · rw [h2] at hoc; simp at hoc
    · rw [h2] at hoc; simp at hoc
  · intro hoc
    rcases handleRequest_cases w cache msg with
      ⟨hp0, h2⟩ | ⟨a, r2, hp0, h2⟩ | ⟨a, command2, env2, t2, e, hp0, hst0, h2⟩ |
      ⟨a, command2, env2, t2, es, o, hp0, hst0, hsv, h2⟩ |
      ⟨a, command2, env2, t2, es, hp0, hst0, hsv, h2⟩ |
      ⟨a, command2, env2, t2, es, res, out2, tEnd, hp0, hst0, hsv, h2⟩
    · refine ⟨?_, ?_, ?_⟩
      · rw [h2]; simp
      · rw [h2]; simp
      · intro sched2
        have hps : parseReq { w with sched := sched2 } msg = .noId := hp0
        rw [h2]
        simp [handleRequest, hps]
    · rw [h2] at hoc; simp at hoc
    · rw [h2] at hoc; simp at hoc
    · rw [h2] at hoc; simp at hoc
    · rw [h2] at hoc; simp at hoc
    · rw [h2] at hoc; simp at hoc

/-- Claim C10 witness: a concrete parse-rejected request never locks the
gate and behaves identically under a drained schedule. -/
theorem c10_witness :
    (handleRequest wBase none msgBadCmd).outcome =
        .parseFail (badCommandSpec ++ ": " ++ ("invalid character"))
    ∧ Effect.gateRLock ∉ (handleRequest wBase none msgBadCmd).trace
    ∧ handleRequest { wBase with sched := [Ev.drain] } none msgBadCmd
        = handleRequest wBase none msgBadCmd :=
  ⟨by decide,
    ((c10_gate_after_parse wBase none msgBadCmd).2.1
      (badCommandSpec ++ ": " ++ ("invalid character")) (by decide)).1,
    ((c10_gate_after_parse wBase none msgBadCmd).2.1
      (badCommandSpec ++ ": " ++ ("invalid character")) (by decide)).2.2 [Ev.drain]⟩

end Procmgr
